import Mathlib

/-!
Shallow embedding of the narthex key-registration handler
(src/narthex.c, function narthex_register) together with the small
amount of surrounding state it manipulates.

The filesystem is modelled as an association list from storage names
(lists of characters) to file contents (lists of byte values).  The
handler is a pure function from an environment describing the
behaviour of the fallible system calls (open, write, close, unlink),
the current filesystem and the request, to an execution outcome: the
Kore handler return value, the HTTP response issued (status plus
response body, which narthex always passes as NULL/0), the log lines
emitted, and the resulting filesystem.  A NULL-pointer dereference is
modelled as a distinguished crash outcome.
-/

namespace Narthex

/-- HTTP methods as dispatched by the Kore host layer. -/
inductive Method where
  | get
  | put
  | post
  | delete
  | headM
  | options
  | patch
  deriving DecidableEq

/-- HTTP statuses used by narthex_register. -/
inductive Status where
  | created
  | badRequest
  | conflict
  | internalError
  deriving DecidableEq

/-- Numeric HTTP status codes of the Kore constants used in the source. -/
def Status.code : Status → Nat
  | .created => 201
  | .badRequest => 400
  | .conflict => 409
  | .internalError => 500

/-- Log lines emitted via kore_log in narthex_register. -/
inductive LogEvent where
  | openFailed
  | writeFailed
  | closeFailed
  deriving DecidableEq

/-- KORE_RESULT_OK and KORE_RESULT_ERROR, the handler return values. -/
inductive HandlerResult where
  | ok
  | error
  deriving DecidableEq

/-- Storage names (contents of the char path[] buffer). -/
abbrev Name := List Char

/-- Byte sequences (request bodies and file contents). -/
abbrev Bytes := List Nat

/-- The working directory holding key artifacts, as an association list
from storage names to file contents. -/
abbrev FS := List (Name × Bytes)

/-- Look up the content stored under a name. -/
def fsGet : FS → Name → Option Bytes
  | [], _ => none
  | (m, c) :: rest, n => if m = n then some c else fsGet rest n

/-- Remove every entry stored under a name (the unlink system call). -/
def fsDel : FS → Name → FS
  | [], _ => []
  | (m, c) :: rest, n => if m = n then fsDel rest n else (m, c) :: fsDel rest n

/-- Store content under a name, replacing any previous entry. -/
def fsSet (fs : FS) (n : Name) (c : Bytes) : FS := (n, c) :: fsDel fs n

/-- Number of entries stored under a name. -/
def fsCount : FS → Name → Nat
  | [], _ => 0
  | (m, _) :: rest, n => (if m = n then 1 else 0) + fsCount rest n

/-- UINT_MAX, the upper bound passed to kore_strtonum at line 166. -/
def UINT_MAX : Nat := 2 ^ 32 - 1

/-- PATH_MAX, the size of the char path[] buffer at line 158. -/
def PATH_MAX : Nat := 4096

/-- Value of a single hexadecimal digit character, both cases accepted. -/
def hexVal (c : Char) : Option Nat :=
  if '0' ≤ c ∧ c ≤ '9' then some (c.toNat - 48)
  else if 'a' ≤ c ∧ c ≤ 'f' then some (c.toNat - 87)
  else if 'A' ≤ c ∧ c ≤ 'F' then some (c.toNat - 55)
  else none

/-- Digit value with default 0, used only on characters known to be hex. -/
def hexDigitVal (c : Char) : Nat := (hexVal c).getD 0

/-- Strip an optional 0x or 0X marker from the front of the text. -/
def strip0x : List Char → List Char
  | '0' :: 'x' :: rest => rest
  | '0' :: 'X' :: rest => rest
  | s => s

/-- Parse a non-empty string of hexadecimal digits, most significant
first; any non-hex character or an empty string is a failure. -/
def parseHex (s : List Char) : Option Nat :=
  if s ≠ [] ∧ s.all (fun c => (hexVal c).isSome) then
    some (s.foldl (fun a c => 16 * a + hexDigitVal c) 0)
  else none

/-- Modelled from the spec: kore_strtonum belongs to the Kore library
and its code is not part of this repository; the spec describes the
parse step as accepting an optional 0x/0X marker and rejecting empty
text, non-hex characters, leading or trailing garbage, and values
exceeding the given range (here 0..UINT_MAX). -/
def kore_strtonum (s : List Char) (maxv : Nat) : Option Nat :=
  match parseHex (strip0x s) with
  | none => none
  | some v => if v ≤ maxv then some v else none

/-- Text strictly after the last slash of the path: the id + 1 pointer
obtained from strrchr(req->path, '/') at line 163, or none when the
path holds no slash at all. -/
def afterLastSlash (l : List Char) : Option (List Char) :=
  if '/' ∈ l then some ((l.reverse.takeWhile (fun c => c != '/')).reverse)
  else none

/-- Single hexadecimal digit rendered in lowercase, as printf %x does:
digits 0-9 map to the characters 0-9 and digits 10-15 to a-f. -/
def hexDigitChar (d : Nat) : Char :=
  Char.ofNat (if d < 10 then 48 + d else 87 + d)

/-- Little-endian base-16 digits of a number, computed with explicit
fuel so that the definition is structural. -/
def hexLE : Nat → Nat → List Nat
  | _, 0 => []
  | 0, _ + 1 => []
  | f + 1, m + 1 => (m + 1) % 16 :: hexLE f ((m + 1) / 16)

/-- Little-endian base-16 digits with enough fuel. -/
def hexDigitsLE (v : Nat) : List Nat := hexLE v v

/-- Lowercase hexadecimal rendering of a number with no leading zeros
beyond what the value requires: the output of printf %x. -/
def hexChars (v : Nat) : List Char :=
  if v = 0 then ['0'] else ((hexDigitsLE v).map hexDigitChar).reverse

/-- Canonical storage name produced by snprintf(path, sizeof(path),
"0x%x.key", keyid) at line 172. -/
def fmtName (v : Nat) : Name :=
  '0' :: 'x' :: (hexChars v ++ ['.', 'k', 'e', 'y'])

/-- A registration request as delivered by the Kore host layer: the
method, the raw path, and the body.  The body is an Option because
req->http_body is a pointer that the host layer leaves NULL when the
request carries no body (Content-Length zero); the handler reads
req->http_body->data and req->http_body->length without a NULL check. -/
structure Request where
  method : Method
  path : List Char
  body : Option Bytes
  deriving DecidableEq

/-- Behaviour of the fallible system calls during one handler run:
whether open fails for a reason other than EEXIST, the return value of
write (none models -1, some n models n bytes written, capped at the
requested length), whether close fails, and whether unlink fails. -/
structure Env where
  createFail : Bool
  writeRet : Option Nat
  closeFail : Bool
  unlinkFail : Bool
  deriving DecidableEq

/-- Observable outcome of one handler run: the Kore return value, the
response issued via http_response (status and response body bytes;
narthex always passes NULL/0, an empty body), the log lines, and the
filesystem afterwards. -/
structure Outcome where
  result : HandlerResult
  response : Option (Status × Bytes)
  log : List LogEvent
  fs : FS
  deriving DecidableEq

/-- A handler execution either completes with an outcome or crashes on
a NULL-pointer dereference; the crash records the filesystem at the
point of the fault. -/
inductive Exec where
  | done (o : Outcome)
  | crash (fs : FS)
  deriving DecidableEq

/-- Filesystem left behind by an execution. -/
def Exec.fsAfter : Exec → FS
  | .done o => o.fs
  | .crash fs => fs

/-- Shallow embedding of narthex_register (src/narthex.c lines
151-205).  Mirrors the source branch for branch: the method check, the
strrchr path split, the kore_strtonum parse, the snprintf bounds
check, the O_CREAT|O_TRUNC|O_EXCL open, the single write call with its
full-length check and unlink cleanup, the close, and the final 201. -/
def narthex_register (env : Env) (fs : FS) (req : Request) : Exec :=
  if req.method ≠ Method.put then
    .done ⟨.error, none, [], fs⟩
  else
    match afterLastSlash req.path with
    | none => .done ⟨.error, none, [], fs⟩
    | some seg =>
      match kore_strtonum seg UINT_MAX with
      | none => .done ⟨.ok, some (.badRequest, []), [], fs⟩
      | some keyid =>
        let path := fmtName keyid
        if PATH_MAX ≤ path.length then
          .done ⟨.ok, some (.internalError, []), [], fs⟩
        else if (fsGet fs path).isSome then
          .done ⟨.ok, some (.conflict, []), [], fs⟩
        else if env.createFail then
          .done ⟨.ok, some (.internalError, []), [.openFailed], fs⟩
        else
          let fs1 := fsSet fs path []
          match req.body with
          | none => .crash fs1
          | some b =>
            match env.writeRet with
            | none =>
              .done ⟨.ok, some (.internalError, []), [.writeFailed],
                if env.unlinkFail then fs1 else fsDel fs1 path⟩
            | some n =>
              let w := min n b.length
              let fs2 := fsSet fs1 path (b.take w)
              if w ≠ b.length then
                .done ⟨.ok, some (.internalError, []), [.writeFailed],
                  if env.unlinkFail then fs2 else fsDel fs2 path⟩
              else
                .done ⟨.ok, some (.created, []),
                  if env.closeFail then [.closeFailed] else [], fs2⟩

/-- Identifier a request's path parses to, when it parses at all. -/
def reqKey (r : Request) : Option Nat :=
  (afterLastSlash r.path).bind (fun seg => kore_strtonum seg UINT_MAX)

/-- Storage name a request targets, when its path parses. -/
def targetName (r : Request) : Option Name := (reqKey r).map fmtName

/-- Run a sequence of handler invocations, threading the filesystem
from each invocation to the next (the exclusive create totally orders
racing attempts, so a sequential run represents any interleaving). -/
def runAll (fs : FS) : List (Env × Request) → List Exec × FS
  | [] => ([], fs)
  | (e, r) :: rest =>
    let x := narthex_register e fs r
    let (outs, fs2) := runAll x.fsAfter rest
    (x :: outs, fs2)

/-! Basic facts about the filesystem model. -/

theorem fsDel_of_fsGet_none {fs : FS} {n : Name} (h : fsGet fs n = none) :
    fsDel fs n = fs := by
  induction fs with
  | nil => rfl
  | cons p rest ih =>
    obtain ⟨m, c⟩ := p
    by_cases hm : m = n
    · simp [fsGet, hm] at h
    · simp [fsGet, hm] at h
      simp [fsDel, hm, ih h]

theorem fsCount_of_fsGet_none {fs : FS} {n : Name} (h : fsGet fs n = none) :
    fsCount fs n = 0 := by
  induction fs with
  | nil => rfl
  | cons p rest ih =>
    obtain ⟨m, c⟩ := p
    by_cases hm : m = n
    · simp [fsGet, hm] at h
    · simp [fsGet, hm] at h
      simp [fsCount, hm, ih h]

theorem fsGet_fsSet_self (fs : FS) (n : Name) (c : Bytes) :
    fsGet (fsSet fs n c) n = some c := by
  simp [fsSet, fsGet]

theorem fsCount_fsDel (fs : FS) (n : Name) : fsCount (fsDel fs n) n = 0 := by
  induction fs with
  | nil => rfl
  | cons p rest ih =>
    obtain ⟨m, c⟩ := p
    by_cases hm : m = n
    · simp [fsDel, hm, ih]
    · simp [fsDel, fsCount, hm, ih]

theorem fsCount_fsSet_self (fs : FS) (n : Name) (c : Bytes) :
    fsCount (fsSet fs n c) n = 1 := by
  simp [fsSet, fsCount, fsCount_fsDel]

theorem fsGet_fsDel_other {fs : FS} {n m : Name} (h : m ≠ n) :
    fsGet (fsDel fs n) m = fsGet fs m := by
  induction fs with
  | nil => rfl
  | cons p rest ih =>
    obtain ⟨q, d⟩ := p
    by_cases hq : q = n
    · subst hq
      have hqm : ¬ q = m := fun he => h he.symm
      simp [fsDel, fsGet, hqm, ih]
    · by_cases hqm : q = m <;> simp [fsDel, fsGet, hq, hqm, ih, h]

theorem fsGet_fsSet_other {fs : FS} {n m : Name} (c : Bytes) (h : m ≠ n) :
    fsGet (fsSet fs n c) m = fsGet fs m := by
  have hn : ¬ n = m := fun he => h he.symm
  simp [fsSet, fsGet, hn, fsGet_fsDel_other h]

/-! Facts about the hexadecimal rendering used by fmtName. -/

theorem hexVal_hexDigitChar {d : Nat} (h : d < 16) :
    hexVal (hexDigitChar d) = some d := by
  interval_cases d <;> decide

theorem hexDigitChar_ne_zero_char {d : Nat} (h : d < 16) (hd : d ≠ 0) :
    hexDigitChar d ≠ '0' := by
  interval_cases d <;> simp_all <;> decide

theorem hexLE_eq_digits : ∀ f n : Nat, n ≤ f → hexLE f n = Nat.digits 16 n := by
  intro f
  induction f with
  | zero =>
    intro n h
    interval_cases n
    simp [hexLE]
  | succ f ih =>
    intro n h
    match n with
    | 0 => simp [hexLE]
    | m + 1 =>
      have hdiv : (m + 1) / 16 < m + 1 := Nat.div_lt_self (Nat.succ_pos m) (by norm_num)
      rw [hexLE, ih ((m + 1) / 16) (by omega),
        Nat.digits_def' (by norm_num : (1 : Nat) < 16) (Nat.succ_pos m)]

theorem hexDigitsLE_eq_digits (v : Nat) : hexDigitsLE v = Nat.digits 16 v :=
  hexLE_eq_digits v v le_rfl

theorem hexChars_length_le {v : Nat} (h : v ≤ UINT_MAX) :
    (hexChars v).length ≤ 8 := by
  by_cases hv : v = 0
  · simp [hexChars, hv]
  · have hlen : 16 ^ (Nat.digits 16 v).length ≤ 16 * v :=
      Nat.base_pow_length_digits_le 16 v (by norm_num) hv
    have hbound : 16 * v < 16 ^ 9 := by
      have : v < 2 ^ 32 := by
        simp [UINT_MAX] at h
        omega
      calc 16 * v < 16 * 2 ^ 32 := by omega
        _ = 16 ^ 9 := by norm_num
    have hpow : 16 ^ (Nat.digits 16 v).length < 16 ^ 9 := lt_of_le_of_lt hlen hbound
    have : (Nat.digits 16 v).length < 9 :=
      (Nat.pow_lt_pow_iff_right (by norm_num : 1 < 16)).mp hpow
    simp [hexChars, hv, hexDigitsLE_eq_digits]
    omega

theorem fmtName_length (v : Nat) : (fmtName v).length = 6 + (hexChars v).length := by
  simp [fmtName]
  omega

theorem fmtName_length_le {v : Nat} (h : v ≤ UINT_MAX) :
    (fmtName v).length ≤ 14 := by
  have := hexChars_length_le h
  rw [fmtName_length]
  omega

theorem fmtName_short {v : Nat} (h : v ≤ UINT_MAX) :
    ¬ PATH_MAX ≤ (fmtName v).length := by
  have := fmtName_length_le h
  simp [PATH_MAX]
  omega

theorem foldr_hexDigits {ds : List Nat} (h : ∀ d ∈ ds, d < 16) :
    ds.foldr (fun d a => 16 * a + hexDigitVal (hexDigitChar d)) 0 = Nat.ofDigits 16 ds := by
  induction ds with
  | nil => simp [Nat.ofDigits_nil]
  | cons d tl ih =>
    have hd : d < 16 := h d (by simp)
    have htl : ∀ x ∈ tl, x < 16 := fun x hx => h x (by simp [hx])
    have hv : hexDigitVal (hexDigitChar d) = d := by
      simp [hexDigitVal, hexVal_hexDigitChar hd]
    rw [List.foldr_cons, ih htl, Nat.ofDigits_cons, hv]
    omega

theorem hexChars_ne_nil (v : Nat) : hexChars v ≠ [] := by
  by_cases hv : v = 0
  · simp [hexChars, hv]
  · simp [hexChars, hv, hexDigitsLE_eq_digits,
      Nat.digits_ne_nil_iff_ne_zero.mpr hv]

theorem hexChars_all_hex (v : Nat) :
    ∀ c ∈ hexChars v, (hexVal c).isSome := by
  by_cases hv : v = 0
  · simp [hexChars, hv]
    decide
  · intro c hc
    simp [hexChars, hv, hexDigitsLE_eq_digits] at hc
    obtain ⟨d, hd, rfl⟩ := hc
    have : d < 16 := Nat.digits_lt_base (by norm_num) hd
    simp [hexVal_hexDigitChar this]

theorem parseHex_hexChars (v : Nat) : parseHex (hexChars v) = some v := by
  by_cases hv : v = 0
  · subst hv
    decide
  · have hds : Nat.digits 16 v ≠ [] := Nat.digits_ne_nil_iff_ne_zero.mpr hv
    have hlt : ∀ d ∈ Nat.digits 16 v, d < 16 :=
      fun d hd => Nat.digits_lt_base (by norm_num) hd
    unfold parseHex
    rw [if_pos ⟨hexChars_ne_nil v, by
      rw [List.all_eq_true]
      intro c hc
      exact hexChars_all_hex v c hc⟩]
    congr 1
    unfold hexChars
    rw [if_neg hv, hexDigitsLE_eq_digits, List.foldl_reverse, List.foldr_map]
    calc (Nat.digits 16 v).foldr
          (fun d a => 16 * a + hexDigitVal (hexDigitChar d)) 0
        = Nat.ofDigits 16 (Nat.digits 16 v) := foldr_hexDigits hlt
      _ = v := Nat.ofDigits_digits 16 v

theorem hexChars_head_ne_zero {v : Nat} (hv : v ≠ 0) :
    (hexChars v).head? ≠ some '0' := by
  have hds : Nat.digits 16 v ≠ [] := Nat.digits_ne_nil_iff_ne_zero.mpr hv
  have hlast := Nat.getLast_digit_ne_zero 16 hv
  have hlt : (Nat.digits 16 v).getLast hds < 16 :=
    Nat.digits_lt_base (by norm_num) (List.getLast_mem hds)
  unfold hexChars
  rw [if_neg hv, hexDigitsLE_eq_digits, List.head?_reverse, List.getLast?_map,
    List.getLast?_eq_getLast_of_ne_nil hds]
  simp
  exact hexDigitChar_ne_zero_char hlt hlast

theorem kore_strtonum_le {s : List Char} {maxv v : Nat}
    (h : kore_strtonum s maxv = some v) : v ≤ maxv := by
  unfold kore_strtonum at h
  rcases hp : parseHex (strip0x s) with _ | w
  · rw [hp] at h
    exact absurd h (by simp)
  · rw [hp] at h
    by_cases hle : w ≤ maxv
    · simp [hle] at h
      omega
    · simp [hle] at h

/-! Branch lemmas for narthex_register, one per exit path of the C
function. -/

theorem reqKey_elim {r : Request} {k : Nat} (h : reqKey r = some k) :
    ∃ seg, afterLastSlash r.path = some seg ∧
      kore_strtonum seg UINT_MAX = some k := by
  unfold reqKey at h
  rw [Option.bind_eq_some] at h
  exact h

theorem register_not_put {e : Env} {fs : FS} {r : Request}
    (hm : r.method ≠ Method.put) :
    narthex_register e fs r = .done ⟨.error, none, [], fs⟩ := by
  unfold narthex_register
  rw [if_pos hm]

theorem register_no_slash {e : Env} {fs : FS} {r : Request}
    (hm : r.method = Method.put) (hs : afterLastSlash r.path = none) :
    narthex_register e fs r = .done ⟨.error, none, [], fs⟩ := by
  simp [narthex_register, hm, hs]

theorem register_badRequest {e : Env} {fs : FS} {r : Request} {seg : List Char}
    (hm : r.method = Method.put) (hs : afterLastSlash r.path = some seg)
    (hp : kore_strtonum seg UINT_MAX = none) :
    narthex_register e fs r = .done ⟨.ok, some (.badRequest, []), [], fs⟩ := by
  simp [narthex_register, hm, hs, hp]

theorem register_conflict {e : Env} {fs : FS} {r : Request} {k : Nat} {c : Bytes}
    (hm : r.method = Method.put) (hk : reqKey r = some k)
    (hc : fsGet fs (fmtName k) = some c) :
    narthex_register e fs r = .done ⟨.ok, some (.conflict, []), [], fs⟩ := by
  obtain ⟨seg, hs, hnum⟩ := reqKey_elim hk
  simp [narthex_register, hm, hs, hnum, hc, fmtName_short (kore_strtonum_le hnum)]

theorem register_create_fail {e : Env} {fs : FS} {r : Request} {k : Nat}
    (hm : r.method = Method.put) (hk : reqKey r = some k)
    (hfs : fsGet fs (fmtName k) = none) (hcf : e.createFail = true) :
    narthex_register e fs r =
      .done ⟨.ok, some (.internalError, []), [.openFailed], fs⟩ := by
  obtain ⟨seg, hs, hnum⟩ := reqKey_elim hk
  simp [narthex_register, hm, hs, hnum, hfs, hcf,
    fmtName_short (kore_strtonum_le hnum)]

theorem register_success {e : Env} {fs : FS} {r : Request} {k n : Nat} {b : Bytes}
    (hm : r.method = Method.put) (hk : reqKey r = some k)
    (hb : r.body = some b) (hfs : fsGet fs (fmtName k) = none)
    (hcf : e.createFail = false) (hw : e.writeRet = some n)
    (hn : b.length ≤ n) :
    narthex_register e fs r =
      .done ⟨.ok, some (.created, []),
        if e.closeFail then [.closeFailed] else [], (fmtName k, b) :: fs⟩ := by
  obtain ⟨seg, hs, hnum⟩ := reqKey_elim hk
  have hmin : min n b.length = b.length := Nat.min_eq_right hn
  simp [narthex_register, hm, hs, hnum, hfs, hcf, hw, hb, hmin,
    fmtName_short (kore_strtonum_le hnum), fsSet, fsDel,
    fsDel_of_fsGet_none hfs]

theorem register_write_error {e : Env} {fs : FS} {r : Request} {k : Nat} {b : Bytes}
    (hm : r.method = Method.put) (hk : reqKey r = some k)
    (hb : r.body = some b) (hfs : fsGet fs (fmtName k) = none)
    (hcf : e.createFail = false) (hw : e.writeRet = none) :
    narthex_register e fs r =
      .done ⟨.ok, some (.internalError, []), [.writeFailed],
        if e.unlinkFail then (fmtName k, []) :: fs else fs⟩ := by
  obtain ⟨seg, hs, hnum⟩ := reqKey_elim hk
  simp [narthex_register, hm, hs, hnum, hfs, hcf, hw, hb,
    fmtName_short (kore_strtonum_le hnum), fsSet, fsDel,
    fsDel_of_fsGet_none hfs]

theorem register_partial_write {e : Env} {fs : FS} {r : Request} {k n : Nat}
    {b : Bytes}
    (hm : r.method = Method.put) (hk : reqKey r = some k)
    (hb : r.body = some b) (hfs : fsGet fs (fmtName k) = none)
    (hcf : e.createFail = false) (hw : e.writeRet = some n)
    (hlt : n < b.length) :
    narthex_register e fs r =
      .done ⟨.ok, some (.internalError, []), [.writeFailed],
        if e.unlinkFail then (fmtName k, b.take n) :: fs else fs⟩ := by
  obtain ⟨seg, hs, hnum⟩ := reqKey_elim hk
  have hmin : min n b.length = n := Nat.min_eq_left (Nat.le_of_lt hlt)
  have hne : n ≠ b.length := Nat.ne_of_lt hlt
  simp [narthex_register, hm, hs, hnum, hfs, hcf, hw, hb, hmin, hne,
    fmtName_short (kore_strtonum_le hnum), fsSet, fsDel,
    fsDel_of_fsGet_none hfs]

theorem register_nobody_crash {e : Env} {fs : FS} {r : Request} {k : Nat}
    (hm : r.method = Method.put) (hk : reqKey r = some k)
    (hb : r.body = none) (hfs : fsGet fs (fmtName k) = none)
    (hcf : e.createFail = false) :
    narthex_register e fs r = .crash ((fmtName k, []) :: fs) := by
  obtain ⟨seg, hs, hnum⟩ := reqKey_elim hk
  simp [narthex_register, hm, hs, hnum, hfs, hcf, hb, fsSet,
    fmtName_short (kore_strtonum_le hnum), fsDel_of_fsGet_none hfs]

theorem runAll_conflict {k : Nat} {c : Bytes} {fs : FS}
    (l : List (Env × Request))
    (hall : ∀ p ∈ l, p.2.method = Method.put ∧ reqKey p.2 = some k)
    (hc : fsGet fs (fmtName k) = some c) :
    runAll fs l =
      (l.map (fun _ => .done ⟨.ok, some (.conflict, []), [], fs⟩), fs) := by
  induction l with
  | nil => rfl
  | cons p rest ih =>
    obtain ⟨e, r⟩ := p
    obtain ⟨hm, hk⟩ := hall (e, r) (by simp)
    have hstep := register_conflict (e := e) hm hk hc
    simp [runAll, hstep, Exec.fsAfter, ih (fun q hq => hall q (by simp [hq]))]

theorem hexDigitChar_mem_lower {d : Nat} (h : d < 16) :
    hexDigitChar d ∈ "0123456789abcdef".toList := by
  interval_cases d <;> decide

theorem hexChars_lower (v : Nat) :
    ∀ c ∈ hexChars v, c ∈ "0123456789abcdef".toList := by
  by_cases hv : v = 0
  · simp [hexChars, hv]
  · intro c hc
    simp [hexChars, hv, hexDigitsLE_eq_digits] at hc
    obtain ⟨d, hd, rfl⟩ := hc
    exact hexDigitChar_mem_lower (Nat.digits_lt_base (by norm_num) hd)

/-! Theorems settling the individual claims. -/

/-- C1: among any number of registration attempts for the same identifier k,
run in the total order imposed by the exclusive create, at most one attempt
receives 201 Created (here: exactly the first, the filesystem starting with
the name unclaimed); every other attempt receives 409 Conflict and performs
no writes (the filesystem field of every later outcome is the winner's
filesystem, unchanged), and afterward exactly one artifact named for k
exists, containing exactly the winning attempt's body bytes. -/
theorem C1_uniqueness {k n0 : Nat} {b0 : Bytes} (e0 : Env) (r0 : Request)
    (l : List (Env × Request)) (fs : FS)
    (hm0 : r0.method = Method.put) (hk0 : reqKey r0 = some k)
    (hb0 : r0.body = some b0) (hcf0 : e0.createFail = false)
    (hw0 : e0.writeRet = some n0) (hn0 : b0.length ≤ n0)
    (hrest : ∀ p ∈ l, p.2.method = Method.put ∧ reqKey p.2 = some k)
    (hfs : fsGet fs (fmtName k) = none) :
    runAll fs ((e0, r0) :: l) =
      (.done ⟨.ok, some (.created, []),
          if e0.closeFail then [.closeFailed] else [],
          (fmtName k, b0) :: fs⟩ ::
        l.map (fun _ =>
          .done ⟨.ok, some (.conflict, []), [], (fmtName k, b0) :: fs⟩),
        (fmtName k, b0) :: fs) ∧
      fsGet ((fmtName k, b0) :: fs) (fmtName k) = some b0 ∧
      fsCount ((fmtName k, b0) :: fs) (fmtName k) = 1 := by
  have hstep := register_success hm0 hk0 hb0 hfs hcf0 hw0 hn0
  have hc2 : fsGet ((fmtName k, b0) :: fs) (fmtName k) = some b0 := by
    simp [fsGet]
  refine ⟨?_, hc2, ?_⟩
  · simp [runAll, hstep, Exec.fsAfter, runAll_conflict l hrest hc2]
  · simp [fsCount, fsCount_of_fsGet_none hfs]

/-- C2: a PUT whose trailing path segment is empty, contains a non-hex
character (including leading or trailing garbage), or encodes a value
exceeding the 32-bit unsigned range, gets the 400 Bad Request response,
and the filesystem is untouched. -/
theorem C2_validation {e : Env} {fs : FS} {r : Request} {seg : List Char}
    (hm : r.method = Method.put) (hs : afterLastSlash r.path = some seg)
    (hbad : strip0x seg = [] ∨ (∃ c ∈ strip0x seg, hexVal c = none) ∨
      (∃ v, parseHex (strip0x seg) = some v ∧ UINT_MAX < v)) :
    narthex_register e fs r = .done ⟨.ok, some (.badRequest, []), [], fs⟩ := by
  apply register_badRequest hm hs
  rcases hbad with h1 | ⟨c, hc, hval⟩ | ⟨v, hp, hv⟩
  · simp [kore_strtonum, parseHex, h1]
  · have hall : ¬ ((strip0x seg).all (fun c => (hexVal c).isSome) = true) := by
      rw [List.all_eq_true]
      intro hcontra
      have := hcontra c hc
      rw [hval] at this
      simp at this
    simp [kore_strtonum, parseHex, hall]
  · simp [kore_strtonum, hp]
    omega

/-- C3: a request whose identifier maps to a storage name already holding
an artifact receives 409 Conflict, with the artifact, its contents and the
rest of the filesystem unchanged; repeating the request any number of
times yields 409 each time and never 201. -/
theorem C3_idempotent_rejection {e : Env} {fs : FS} {r : Request} {k : Nat}
    {c : Bytes} (hm : r.method = Method.put) (hk : reqKey r = some k)
    (hc : fsGet fs (fmtName k) = some c) :
    narthex_register e fs r = .done ⟨.ok, some (.conflict, []), [], fs⟩ ∧
      ∀ m : Nat, runAll fs (List.replicate m (e, r)) =
        (List.replicate m (.done ⟨.ok, some (.conflict, []), [], fs⟩), fs) := by
  refine ⟨register_conflict hm hk hc, fun m => ?_⟩
  have hrun := runAll_conflict (List.replicate m (e, r))
    (fun p hp => by
      have hp2 : p = (e, r) := List.eq_of_mem_replicate hp
      subst hp2
      exact ⟨hm, hk⟩) hc
  simpa [List.map_replicate] using hrun

/-- C4: a PUT with a parsable in-range identifier, an unclaimed storage
name and a write that covers the whole body responds 201 Created with an
empty response body; the artifact holds exactly the request body bytes,
and a failing close (closeFail true) only adds a log line without changing
the 201 response or the artifact. -/
theorem C4_success_response {e : Env} {fs : FS} {r : Request} {k n : Nat}
    {b : Bytes}
    (hm : r.method = Method.put) (hk : reqKey r = some k)
    (hb : r.body = some b) (hfs : fsGet fs (fmtName k) = none)
    (hcf : e.createFail = false) (hw : e.writeRet = some n)
    (hn : b.length ≤ n) :
    narthex_register e fs r =
      .done ⟨.ok, some (.created, []),
        if e.closeFail then [.closeFailed] else [], (fmtName k, b) :: fs⟩ :=
  register_success hm hk hb hfs hcf hw hn

/-- C5: a request that wins the exclusive create but whose write errors
(writeRet none) or stays short of the body length responds 500 Internal
Server Error after deleting the just-created artifact: the filesystem is
exactly as before the request, so no artifact named for the identifier
remains and a later attempt with a working write receives 201. -/
theorem C5_cleanup_on_partial_write {e : Env} {fs : FS} {r : Request}
    {k : Nat} {b : Bytes}
    (hm : r.method = Method.put) (hk : reqKey r = some k)
    (hb : r.body = some b) (hfs : fsGet fs (fmtName k) = none)
    (hcf : e.createFail = false) (hu : e.unlinkFail = false)
    (hfail : e.writeRet = none ∨ ∃ n, e.writeRet = some n ∧ n < b.length) :
    narthex_register e fs r =
      .done ⟨.ok, some (.internalError, []), [.writeFailed], fs⟩ ∧
    fsGet fs (fmtName k) = none ∧
    ∀ (e2 : Env) (n2 : Nat), e2.createFail = false → e2.writeRet = some n2 →
      b.length ≤ n2 →
      narthex_register e2 fs r =
        .done ⟨.ok, some (.created, []),
          if e2.closeFail then [.closeFailed] else [], (fmtName k, b) :: fs⟩ := by
  refine ⟨?_, hfs,
    fun e2 n2 hcf2 hw2 hn2 => register_success hm hk hb hfs hcf2 hw2 hn2⟩
  rcases hfail with hw | ⟨n, hw, hlt⟩
  · simpa [hu] using register_write_error hm hk hb hfs hcf hw
  · simpa [hu] using register_partial_write hm hk hb hfs hcf hw hlt

/-- C6: the storage name is the characters 0x, the lowercase hexadecimal
rendering of the identifier value with no leading zeros beyond what the
value requires, then .key; the rendering parses back to the value, and any
two requests whose path segments parse to the same value target the same
storage name. -/
theorem C6_canonical_name {v : Nat} (_h : v ≤ UINT_MAX) :
    fmtName v = '0' :: 'x' :: (hexChars v ++ ['.', 'k', 'e', 'y']) ∧
    parseHex (hexChars v) = some v ∧
    (v = 0 → hexChars v = ['0']) ∧
    (v ≠ 0 → (hexChars v).head? ≠ some '0') ∧
    (∀ c ∈ hexChars v, c ∈ "0123456789abcdef".toList) ∧
    (∀ r1 r2 : Request, reqKey r1 = some v → reqKey r2 = some v →
      targetName r1 = targetName r2) :=
  ⟨rfl, parseHex_hexChars v, fun hv => by simp [hexChars, hv],
    fun hv => hexChars_head_ne_zero hv, hexChars_lower v,
    fun r1 r2 h1 h2 => by simp [targetName, h1, h2]⟩

/-- C7: a request whose method is not PUT makes the handler return
KORE_RESULT_ERROR (the rejection outcome reported to the Kore host layer,
which dispatches only PUT to this route) without issuing a response and
without touching the filesystem. -/
theorem C7_method_rejected {e : Env} {fs : FS} {r : Request}
    (hm : r.method ≠ Method.put) :
    narthex_register e fs r = .done ⟨.error, none, [], fs⟩ :=
  register_not_put hm

/-- C8 (failing execution): narthex_register dereferences
req->http_body without a NULL check, so a PUT to a valid unclaimed
identifier that carries no body at all crashes instead of running to
completion, leaving the claimed-but-empty artifact behind. -/
theorem C8_crash_on_missing_body :
    narthex_register ⟨false, some 0, false, false⟩ []
      ⟨Method.put, "/register/0x11".toList, none⟩ =
      .crash [("0x11.key".toList, [])] := by
  decide

/-- C9: the handler enforces no size constraint on the request body: for
every body byte sequence, of any length, the successful run persists it
verbatim as the artifact content, and the response is 201, never a
size-based rejection. -/
theorem C9_no_size_limit {e : Env} {fs : FS} {r : Request} {k n : Nat}
    (b : Bytes)
    (hm : r.method = Method.put) (hk : reqKey r = some k)
    (hb : r.body = some b) (hfs : fsGet fs (fmtName k) = none)
    (hcf : e.createFail = false) (hw : e.writeRet = some n)
    (hn : b.length ≤ n) :
    ∃ o : Outcome, narthex_register e fs r = .done o ∧
      o.response = some (.created, []) ∧
      fsGet o.fs (fmtName k) = some b :=
  ⟨_, register_success hm hk hb hfs hcf hw hn, rfl, by simp [fsGet]⟩

/-- C10: for every identifier value in the 32-bit range the formatted
storage name has at most 14 characters, strictly less than the
PATH_MAX-sized buffer, so the formatting-overflow branch (the only branch
responding 500 without emitting a log line) is unreachable. -/
theorem C10_format_overflow_unreachable {v : Nat} (h : v ≤ UINT_MAX) :
    (fmtName v).length ≤ 14 ∧ (fmtName v).length < PATH_MAX ∧
    ∀ (e : Env) (fs : FS) (r : Request) (fs2 : FS),
      r.method = Method.put → reqKey r = some v →
      narthex_register e fs r ≠
        .done ⟨.ok, some (.internalError, []), [], fs2⟩ := by
  have h14 := fmtName_length_le h
  refine ⟨h14, by simp [PATH_MAX]; omega, ?_⟩
  intro e fs r fs2 hm hk heq
  by_cases hex : (fsGet fs (fmtName v)).isSome
  · obtain ⟨c, hc⟩ := Option.isSome_iff_exists.mp hex
    rw [register_conflict hm hk hc] at heq
    simp at heq
  · have hfs : fsGet fs (fmtName v) = none :=
      Option.not_isSome_iff_eq_none.mp hex
    by_cases hcf : e.createFail
    · rw [register_create_fail hm hk hfs hcf] at heq
      simp at heq
    · have hcf2 : e.createFail = false := by simpa using hcf
      rcases hbody : r.body with _ | b
      · rw [register_nobody_crash hm hk hbody hfs hcf2] at heq
        simp at heq
      · rcases hwr : e.writeRet with _ | n
        · rw [register_write_error hm hk hbody hfs hcf2 hwr] at heq
          simp at heq
        · by_cases hn : b.length ≤ n
          · rw [register_success hm hk hbody hfs hcf2 hwr hn] at heq
            simp at heq
          · have hlt : n < b.length := by omega
            rw [register_partial_write hm hk hbody hfs hcf2 hwr hlt] at heq
            simp at heq

/-! Concrete witnesses instantiating the claim theorems. -/

/-- C1 witness: two attempts for identifier 0x2 on an empty filesystem;
the first wins with body bytes 1 2, the second observes the conflict. -/
theorem C1_uniqueness_witness :
    ((⟨Method.put, "/register/0x2".toList, some [1, 2]⟩ : Request).method =
        Method.put ∧
      reqKey ⟨Method.put, "/register/0x2".toList, some [1, 2]⟩ = some 2 ∧
      (some [1, 2] : Option Bytes) = some [1, 2] ∧
      ([1, 2] : Bytes).length ≤ 8 ∧
      fsGet [] (fmtName 2) = none) ∧
    (runAll []
        [(⟨false, some 8, false, false⟩,
          ⟨Method.put, "/register/0x2".toList, some [1, 2]⟩),
         (⟨false, some 8, false, false⟩,
          ⟨Method.put, "/register/0x2".toList, some [3]⟩)] =
      ([Exec.done ⟨.ok, some (.created, []), [], [(fmtName 2, [1, 2])]⟩,
        Exec.done ⟨.ok, some (.conflict, []), [], [(fmtName 2, [1, 2])]⟩],
        [(fmtName 2, [1, 2])]) ∧
      fsGet [(fmtName 2, [1, 2])] (fmtName 2) = some [1, 2] ∧
      fsCount [(fmtName 2, [1, 2])] (fmtName 2) = 1) :=
  ⟨⟨rfl, by decide, rfl, by decide, rfl⟩,
    @C1_uniqueness 2 8 [1, 2] ⟨false, some 8, false, false⟩
      ⟨Method.put, "/register/0x2".toList, some [1, 2]⟩
      [(⟨false, some 8, false, false⟩,
        ⟨Method.put, "/register/0x2".toList, some [3]⟩)]
      [] rfl (by decide) rfl rfl rfl (by decide) (by decide) rfl⟩

/-- C2 witness: PUT /register/0xzz, whose trailing segment holds the
non-hex character z, receives 400 and leaves the filesystem empty. -/
theorem C2_validation_witness :
    ((⟨Method.put, "/register/0xzz".toList, some []⟩ : Request).method =
        Method.put ∧
      afterLastSlash "/register/0xzz".toList = some "0xzz".toList ∧
      (strip0x "0xzz".toList = [] ∨
        (∃ c ∈ strip0x "0xzz".toList, hexVal c = none) ∨
        (∃ v, parseHex (strip0x "0xzz".toList) = some v ∧ UINT_MAX < v))) ∧
    narthex_register ⟨false, some 0, false, false⟩ []
        ⟨Method.put, "/register/0xzz".toList, some []⟩ =
      .done ⟨.ok, some (.badRequest, []), [], []⟩ :=
  ⟨⟨rfl, by decide, Or.inr (Or.inl ⟨'z', by decide, by decide⟩)⟩,
    @C2_validation ⟨false, some 0, false, false⟩ []
      ⟨Method.put, "/register/0xzz".toList, some []⟩ ("0xzz".toList)
      rfl (by decide) (Or.inr (Or.inl ⟨'z', by decide, by decide⟩))⟩

/-- C3 witness: identifier 0x1 already registered with content byte 5; a
further PUT with different body bytes observes 409 and changes nothing,
and so does every repetition. -/
theorem C3_idempotent_rejection_witness :
    ((⟨Method.put, "/register/0x1".toList, some [9]⟩ : Request).method =
        Method.put ∧
      reqKey ⟨Method.put, "/register/0x1".toList, some [9]⟩ = some 1 ∧
      fsGet [(fmtName 1, [5])] (fmtName 1) = some [5]) ∧
    (narthex_register ⟨false, some 9, false, false⟩ [(fmtName 1, [5])]
        ⟨Method.put, "/register/0x1".toList, some [9]⟩ =
      .done ⟨.ok, some (.conflict, []), [], [(fmtName 1, [5])]⟩ ∧
      ∀ m : Nat,
        runAll [(fmtName 1, [5])]
          (List.replicate m (⟨false, some 9, false, false⟩,
            ⟨Method.put, "/register/0x1".toList, some [9]⟩)) =
        (List.replicate m
          (.done ⟨.ok, some (.conflict, []), [], [(fmtName 1, [5])]⟩),
          [(fmtName 1, [5])])) :=
  ⟨⟨rfl, by decide, by decide⟩,
    @C3_idempotent_rejection ⟨false, some 9, false, false⟩ [(fmtName 1, [5])]
      ⟨Method.put, "/register/0x1".toList, some [9]⟩ 1 [5]
      rfl (by decide) (by decide)⟩

/-- C4 witness: PUT /register/0x1 with body bytes 7 8 on an empty
filesystem, with a close that fails: the response is still 201 with the
close failure logged, and the artifact holds exactly bytes 7 8. -/
theorem C4_success_response_witness :
    ((⟨Method.put, "/register/0x1".toList, some [7, 8]⟩ : Request).method =
        Method.put ∧
      reqKey ⟨Method.put, "/register/0x1".toList, some [7, 8]⟩ = some 1 ∧
      fsGet [] (fmtName 1) = none ∧ ([7, 8] : Bytes).length ≤ 2) ∧
    narthex_register ⟨false, some 2, true, false⟩ []
        ⟨Method.put, "/register/0x1".toList, some [7, 8]⟩ =
      .done ⟨.ok, some (.created, []), [.closeFailed], [(fmtName 1, [7, 8])]⟩ :=
  ⟨⟨rfl, by decide, rfl, by decide⟩,
    @C4_success_response ⟨false, some 2, true, false⟩ []
      ⟨Method.put, "/register/0x1".toList, some [7, 8]⟩ 1 2 [7, 8]
      rfl (by decide) rfl rfl rfl rfl (by decide)⟩

/-- C5 witness: a write that covers only 1 of the 2 body bytes gets 500,
the filesystem is empty again afterwards, and a retry with a working
write receives 201. -/
theorem C5_cleanup_on_partial_write_witness :
    ((⟨Method.put, "/register/0x3".toList, some [7, 8]⟩ : Request).method =
        Method.put ∧
      reqKey ⟨Method.put, "/register/0x3".toList, some [7, 8]⟩ = some 3 ∧
      fsGet [] (fmtName 3) = none ∧
      ((⟨false, some 1, false, false⟩ : Env).writeRet = none ∨
        ∃ n, (⟨false, some 1, false, false⟩ : Env).writeRet = some n ∧
          n < ([7, 8] : Bytes).length)) ∧
    (narthex_register ⟨false, some 1, false, false⟩ []
        ⟨Method.put, "/register/0x3".toList, some [7, 8]⟩ =
      .done ⟨.ok, some (.internalError, []), [.writeFailed], []⟩ ∧
      fsGet [] (fmtName 3) = none ∧
      ∀ (e2 : Env) (n2 : Nat), e2.createFail = false → e2.writeRet = some n2 →
        ([7, 8] : Bytes).length ≤ n2 →
        narthex_register e2 []
          ⟨Method.put, "/register/0x3".toList, some [7, 8]⟩ =
        .done ⟨.ok, some (.created, []),
          if e2.closeFail then [.closeFailed] else [], (fmtName 3, [7, 8]) :: []⟩) :=
  ⟨⟨rfl, by decide, rfl, Or.inr ⟨1, rfl, by decide⟩⟩,
    @C5_cleanup_on_partial_write ⟨false, some 1, false, false⟩ []
      ⟨Method.put, "/register/0x3".toList, some [7, 8]⟩ 3 [7, 8]
      rfl (by decide) rfl rfl rfl rfl (Or.inr ⟨1, rfl, by decide⟩)⟩

/-- C6 witness: identifier value 26 (0x1a); its storage name renders in
lowercase with no leading zeros and parses back to 26. -/
theorem C6_canonical_name_witness :
    (26 ≤ UINT_MAX) ∧
    (fmtName 26 = '0' :: 'x' :: (hexChars 26 ++ ['.', 'k', 'e', 'y']) ∧
      parseHex (hexChars 26) = some 26 ∧
      (26 = 0 → hexChars 26 = ['0']) ∧
      (26 ≠ 0 → (hexChars 26).head? ≠ some '0') ∧
      (∀ c ∈ hexChars 26, c ∈ "0123456789abcdef".toList) ∧
      (∀ r1 r2 : Request, reqKey r1 = some 26 → reqKey r2 = some 26 →
        targetName r1 = targetName r2)) :=
  ⟨by decide, @C6_canonical_name 26 (by decide)⟩

/-- C7 witness: a GET for a well-formed registration path is rejected
with KORE_RESULT_ERROR, no response and no filesystem change. -/
theorem C7_method_rejected_witness :
    ((⟨Method.get, "/register/0x1".toList, some [1]⟩ : Request).method ≠
        Method.put) ∧
    narthex_register ⟨false, some 1, false, false⟩ []
        ⟨Method.get, "/register/0x1".toList, some [1]⟩ =
      .done ⟨.error, none, [], []⟩ :=
  ⟨by decide, @C7_method_rejected ⟨false, some 1, false, false⟩ []
    ⟨Method.get, "/register/0x1".toList, some [1]⟩ (by decide)⟩

/-- C9 witness: a three-byte body is persisted verbatim under 0x4.key
with a 201 response. -/
theorem C9_no_size_limit_witness :
    ((⟨Method.put, "/register/0x4".toList, some [1, 2, 3]⟩ : Request).method =
        Method.put ∧
      reqKey ⟨Method.put, "/register/0x4".toList, some [1, 2, 3]⟩ = some 4 ∧
      fsGet [] (fmtName 4) = none ∧ ([1, 2, 3] : Bytes).length ≤ 3) ∧
    (∃ o : Outcome,
      narthex_register ⟨false, some 3, false, false⟩ []
          ⟨Method.put, "/register/0x4".toList, some [1, 2, 3]⟩ = .done o ∧
      o.response = some (.created, []) ∧
      fsGet o.fs (fmtName 4) = some [1, 2, 3]) :=
  ⟨⟨rfl, by decide, rfl, by decide⟩,
    @C9_no_size_limit ⟨false, some 3, false, false⟩ []
      ⟨Method.put, "/register/0x4".toList, some [1, 2, 3]⟩ 4 3 [1, 2, 3]
      rfl (by decide) rfl rfl rfl rfl (by decide)⟩

/-- C10 witness: the largest 32-bit identifier value formats to the
14-character name 0xffffffff.key, below PATH_MAX, and no run with that
identifier ever produces the log-less 500 of the formatting-overflow
branch. -/
theorem C10_format_overflow_unreachable_witness :
    (4294967295 ≤ UINT_MAX) ∧
    ((fmtName 4294967295).length ≤ 14 ∧
      (fmtName 4294967295).length < PATH_MAX ∧
      ∀ (e : Env) (fs : FS) (r : Request) (fs2 : FS),
        r.method = Method.put → reqKey r = some 4294967295 →
        narthex_register e fs r ≠
          .done ⟨.ok, some (.internalError, []), [], fs2⟩) :=
  ⟨by decide, @C10_format_overflow_unreachable 4294967295 (by decide)⟩

end Narthex
